import Mathlib

/-!
Shallow embedding of the invoice-manager service (TypeScript + Drizzle/Postgres).

Data model (src/server/src/db/schema.ts): one table `invoices` with
serial id, unique invoice_number, client_name, date_issued (timestamp),
amount_due numeric(10,2), status enum in Pending or Paid, description,
created_at defaultNow().

Monetary values: the application side works with numbers; the storage side
is a numeric(10,2) column, modelled here as an integer number of cents
(`amount_due_cents`). Postgres rounds an inserted value to scale 2
half-away-from-zero (`pgRound2`); reading the column back through
parseFloat is `fromCents`. Application numbers are modelled as rationals.

Timestamps: `created_at` is a logical clock (`DB.now`), strictly increasing
across inserts, which abstracts defaultNow() under the assumption that
successive inserts get distinct timestamps (the repository tests insert
delays to guarantee exactly this).
-/

namespace InvoiceManager

/-- Invoice status enum: exactly the two values of the pgEnum and the zod
enum in src/server/src/schema.ts. -/
inductive InvoiceStatus where
  | Pending
  | Paid
deriving DecidableEq, Repr

/-- A stored row of the `invoices` table (src/server/src/db/schema.ts).
`amount_due_cents` is the numeric(10,2) column in cents; `created_at` is
the logical insertion clock. -/
structure Row where
  id : Nat
  invoice_number : String
  client_name : String
  date_issued : Int
  amount_due_cents : Int
  status : InvoiceStatus
  description : String
  created_at : Nat
deriving DecidableEq, Repr

/-- The application-side Invoice object (invoiceSchema in
src/server/src/schema.ts): identical to a row except that `amount_due` is
a number (here a rational), not the storage string. -/
structure Invoice where
  id : Nat
  invoice_number : String
  client_name : String
  date_issued : Int
  amount_due : Rat
  status : InvoiceStatus
  description : String
  created_at : Nat
deriving DecidableEq, Repr

/-- Rounding of a rational to an integer number of cents, as Postgres
rounds a value inserted into a numeric(10,2) column: half away from zero
at scale 2. -/
def pgRound2 (q : Rat) : Int :=
  if 0 ≤ q then ⌊q * 100 + 1 / 2⌋ else -⌊-q * 100 + 1 / 2⌋

/-- Decoding the stored numeric(10,2) string back to a number, as
`parseFloat(invoice.amount_due)` does in every handler. -/
def fromCents (n : Int) : Rat := (n : Rat) / 100

/-- The `{ ...invoice, amount_due: parseFloat(invoice.amount_due) }`
conversion that every handler applies to a row before returning it. -/
def rowToInvoice (r : Row) : Invoice :=
  { id := r.id
    invoice_number := r.invoice_number
    client_name := r.client_name
    date_issued := r.date_issued
    amount_due := fromCents r.amount_due_cents
    status := r.status
    description := r.description
    created_at := r.created_at }

/-- The store: the rows of the `invoices` table, the serial id sequence,
and the logical clock used for `created_at`. -/
structure DB where
  rows : List Row
  nextId : Nat
  now : Nat
deriving DecidableEq, Repr

/-- An empty store: no rows, serial sequence at 1. -/
def emptyDB : DB := { rows := [], nextId := 1, now := 0 }

/-- Parsed input of createInvoice (CreateInvoiceInput in
src/server/src/schema.ts). -/
structure CreateInvoiceInput where
  invoice_number : String
  client_name : String
  date_issued : Int
  amount_due : Rat
  status : InvoiceStatus
  description : String
deriving DecidableEq, Repr

/-- Input of updateInvoiceStatus (UpdateInvoiceStatusInput in
src/server/src/schema.ts). -/
structure UpdateInvoiceStatusInput where
  id : Nat
  status : InvoiceStatus
deriving DecidableEq, Repr

/-- Failure of the insert in createInvoice: the unique constraint on
invoice_number. -/
inductive CreateErr where
  | duplicateInvoiceNumber
deriving DecidableEq, Repr

/-- Failure of updateInvoiceStatus: the explicit
`Invoice with id ... not found` error thrown when the update matched
zero rows. -/
inductive UpdateErr where
  | invoiceNotFound (id : Nat)
deriving DecidableEq, Repr

/-- The row that the insert in create_invoice.ts hands to the store: the
input values, the amount rounded to the numeric(10,2) column, and the
store-assigned id and created_at. -/
def newRow (input : CreateInvoiceInput) (db : DB) : Row :=
  { id := db.nextId
    invoice_number := input.invoice_number
    client_name := input.client_name
    date_issued := input.date_issued
    amount_due_cents := pgRound2 input.amount_due
    status := input.status
    description := input.description
    created_at := db.now }

/-- src/server/src/handlers/create_invoice.ts: insert the row (the store
enforces the unique constraint on invoice_number and assigns id and
created_at), then convert the stored amount back to a number. Returns the
result together with the resulting store. -/
def createInvoice (input : CreateInvoiceInput) (db : DB) :
    Except CreateErr Invoice × DB :=
  if db.rows.any (fun r => r.invoice_number == input.invoice_number) then
    (.error .duplicateInvoiceNumber, db)
  else
    (.ok (rowToInvoice (newRow input db)),
     { rows := db.rows ++ [newRow input db],
       nextId := db.nextId + 1, now := db.now + 1 })

/-- Effect of `UPDATE invoices SET status = $s WHERE id = $id` on one
row. -/
def updRow (id : Nat) (s : InvoiceStatus) (r : Row) : Row :=
  if r.id = id then { r with status := s } else r

/-- src/unnamed/part_000 (handlers/update_invoice_status.ts): run
`UPDATE invoices SET status = $status WHERE id = $id RETURNING *`; if the
update matched zero rows, fail with the explicit not-found error;
otherwise return the first returned row with the amount converted back to
a number. -/
def updateInvoiceStatus (input : UpdateInvoiceStatusInput) (db : DB) :
    Except UpdateErr Invoice × DB :=
  let updated := db.rows.map (updRow input.id input.status)
  match updated.filter (fun r => r.id == input.id) with
  | [] => (.error (.invoiceNotFound input.id), { db with rows := updated })
  | r :: _ => (.ok (rowToInvoice r), { db with rows := updated })

/-- One insertion step of `ORDER BY created_at DESC`: place a row into an
already descending list, keeping earlier-listed rows first among equals. -/
def insertDesc (x : Row) : List Row → List Row
  | [] => [x]
  | y :: ys =>
    if y.created_at ≤ x.created_at then x :: y :: ys else y :: insertDesc x ys

/-- `ORDER BY created_at DESC` over the whole table. -/
def orderByCreatedDesc : List Row → List Row
  | [] => []
  | x :: xs => insertDesc x (orderByCreatedDesc xs)

/-- src/server/src/handlers/get_invoices.ts: select all rows ordered by
created_at descending and convert each amount back to a number. -/
def getInvoices (db : DB) : List Invoice :=
  (orderByCreatedDesc db.rows).map rowToInvoice

/-- A raw request body before zod parsing: every field may be absent, and
the status arrives as an arbitrary string. -/
structure RawCreateInput where
  invoice_number : Option String
  client_name : Option String
  date_issued : Option Int
  amount_due : Option Rat
  status : Option String
  description : Option String
deriving DecidableEq, Repr

/-- zod `z.string().min(1, msg)` on an optional field: the field must be
present and of length at least 1. -/
def requireNonEmpty (msg : String) : Option String → Except String String
  | none => .error msg
  | some s => if s.length = 0 then .error msg else .ok s

/-- zod `z.coerce.date()`: the field must be present (an absent or
uncoercible value is an invalid date). -/
def requireDate : Option Int → Except String Int
  | none => .error "Invalid date"
  | some d => .ok d

/-- zod `z.number().positive(msg)`: the field must be present and
strictly positive. -/
def requirePositive (msg : String) : Option Rat → Except String Rat
  | none => .error msg
  | some q => if q ≤ 0 then .error msg else .ok q

/-- zod `invoiceStatusEnum.default('Pending')`: an absent status defaults
to Pending; any string other than Pending or Paid is rejected. -/
def parseStatus : Option String → Except String InvoiceStatus
  | none => .ok .Pending
  | some s =>
    if s = "Pending" then .ok .Pending
    else if s = "Paid" then .ok .Paid
    else .error "Invalid enum value for status"

/-- `createInvoiceInputSchema.parse` (src/server/src/schema.ts): validate
every field of the raw request, producing a typed input or the first
validation failure. -/
def parseCreateInput (raw : RawCreateInput) : Except String CreateInvoiceInput :=
  match requireNonEmpty "Invoice number is required" raw.invoice_number with
  | .error e => .error e
  | .ok n =>
    match requireNonEmpty "Client name is required" raw.client_name with
    | .error e => .error e
    | .ok c =>
      match requireDate raw.date_issued with
      | .error e => .error e
      | .ok d =>
        match requirePositive "Amount due must be positive" raw.amount_due with
        | .error e => .error e
        | .ok a =>
          match parseStatus raw.status with
          | .error e => .error e
          | .ok s =>
            match requireNonEmpty "Description is required" raw.description with
            | .error e => .error e
            | .ok desc =>
              .ok { invoice_number := n, client_name := c, date_issued := d,
                    amount_due := a, status := s, description := desc }

/-- Failures of the createInvoice procedure as seen by a caller of the
router: a zod validation failure, or the duplicate invoice number raised
by the store. -/
inductive CreateProcErr where
  | validationError (msg : String)
  | duplicateInvoiceNumber
deriving DecidableEq, Repr

/-- The `createInvoice` tRPC procedure (appRouter in the server entry
point): parse the input against createInvoiceInputSchema, and only on
success run the handler against the store. -/
def createInvoiceProcedure (raw : RawCreateInput) (db : DB) :
    Except CreateProcErr Invoice × DB :=
  match parseCreateInput raw with
  | .error msg => (.error (.validationError msg), db)
  | .ok input =>
    match createInvoice input db with
    | (.ok inv, db1) => (.ok inv, db1)
    | (.error .duplicateInvoiceNumber, db1) =>
      (.error .duplicateInvoiceNumber, db1)

/-- Local view state of the React client (src/client/src/App.tsx). -/
structure ClientState where
  invoices : List Invoice
  formData : CreateInvoiceInput
  isLoading : Bool
  isCreating : Bool
deriving DecidableEq, Repr

/-- The form defaults the client resets to: empty strings, the current
date, amount 0, status Pending. -/
def defaultFormData (today : Int) : CreateInvoiceInput :=
  { invoice_number := ""
    client_name := ""
    date_issued := today
    amount_due := 0
    status := .Pending
    description := "" }

/-- handleCreateInvoice in src/client/src/App.tsx, as a function of the
response of the create mutation: on success prepend the returned invoice
and reset the form; on failure only log (the list and the form are left
as they were). The isCreating flag is set for the duration of the call and
cleared in the finally block. -/
def handleCreateInvoice (today : Int) (s : ClientState)
    (response : Except String Invoice) : ClientState :=
  match response with
  | .ok inv =>
    { s with invoices := inv :: s.invoices
             formData := defaultFormData today
             isCreating := false }
  | .error _ => { s with isCreating := false }

/-- handleStatusUpdate in src/client/src/App.tsx: on success replace the
entry with the matching id by the server-returned invoice; on failure only
log, leaving the state untouched. -/
def handleStatusUpdate (invoiceId : Nat) (s : ClientState)
    (response : Except String Invoice) : ClientState :=
  match response with
  | .ok updated =>
    { s with invoices := s.invoices.map fun inv =>
        if inv.id = invoiceId then updated else inv }
  | .error _ => s

/-- Creating a sequence of invoices one after the other, keeping the store
that results from each call. -/
def createAll (inputs : List CreateInvoiceInput) (db : DB) : DB :=
  inputs.foldl (fun d i => (createInvoice i d).2) db

/-- The non-status fields of a stored row, used to state that the status
update touches nothing else. -/
structure RowFrame where
  id : Nat
  invoice_number : String
  client_name : String
  date_issued : Int
  amount_due_cents : Int
  description : String
  created_at : Nat
deriving DecidableEq, Repr

/-- Projection of a row to its non-status fields. -/
def Row.frame (r : Row) : RowFrame :=
  { id := r.id
    invoice_number := r.invoice_number
    client_name := r.client_name
    date_issued := r.date_issued
    amount_due_cents := r.amount_due_cents
    description := r.description
    created_at := r.created_at }

/-- Well-formedness of a store state, as guaranteed by the schema and
maintained by the operations: every row id is below the serial sequence,
every created_at is below the clock, and both are strictly increasing
along the table. -/
def DB.WF (db : DB) : Prop :=
  (∀ r ∈ db.rows, r.id < db.nextId) ∧
  (∀ r ∈ db.rows, r.created_at < db.now) ∧
  db.rows.Pairwise (fun a b => a.created_at < b.created_at) ∧
  db.rows.Pairwise (fun a b => a.id < b.id)

/-! ### Rounding lemmas -/

lemma floor_intCast_add_half (m : Int) : ⌊(m : Rat) + 1 / 2⌋ = m := by
  rw [add_comm, Int.floor_add_int]
  norm_num

lemma pgRound2_fromCents (n : Int) : pgRound2 (fromCents n) = n := by
  unfold pgRound2 fromCents
  have h100 : ((100 : Rat)) ≠ 0 := by norm_num
  by_cases h : (0 : Rat) ≤ (n : Rat) / 100
  · rw [if_pos h, div_mul_cancel₀ _ h100, floor_intCast_add_half]
  · rw [if_neg h, ← neg_div, div_mul_cancel₀ _ h100,
      show -(n : Rat) = ((-n : Int) : Rat) from by push_cast; ring,
      floor_intCast_add_half]
    ring

lemma fromCents_pgRound2_of_cents (q : Rat) (n : Int) (h : q = (n : Rat) / 100) :
    fromCents (pgRound2 q) = q := by
  subst h
  rw [show ((n : Rat) / 100) = fromCents n from rfl, pgRound2_fromCents]

lemma pgRound2_idem (q : Rat) :
    pgRound2 (fromCents (pgRound2 q)) = pgRound2 q :=
  pgRound2_fromCents (pgRound2 q)

/-! ### Lemmas about the row update function -/

lemma updRow_id (id : Nat) (s : InvoiceStatus) (r : Row) :
    (updRow id s r).id = r.id := by
  unfold updRow
  split <;> rfl

lemma updRow_frame (id : Nat) (s : InvoiceStatus) (r : Row) :
    (updRow id s r).frame = r.frame := by
  unfold updRow
  split <;> rfl

lemma updRow_of_ne (id : Nat) (s : InvoiceStatus) (r : Row)
    (h : r.id ≠ id) : updRow id s r = r := by
  unfold updRow
  exact if_neg h

lemma updRow_of_eq (id : Nat) (s : InvoiceStatus) (r : Row)
    (h : r.id = id) : updRow id s r = { r with status := s } := by
  unfold updRow
  exact if_pos h

lemma map_updRow_of_no_match (rows : List Row) (id : Nat) (s : InvoiceStatus)
    (h : ∀ r ∈ rows, r.id ≠ id) : rows.map (updRow id s) = rows := by
  induction rows with
  | nil => rfl
  | cons x xs ih =>
    simp only [List.map_cons]
    rw [updRow_of_ne id s x (h x (by simp)),
      ih (fun r hr => h r (by simp [hr]))]

lemma filter_id_eq_nil (rows : List Row) (id : Nat)
    (h : ∀ r ∈ rows, r.id ≠ id) :
    rows.filter (fun r => r.id == id) = [] := by
  rw [List.filter_eq_nil_iff]
  intro r hr
  simp [h r hr]

lemma filter_map_updRow_unique (rows : List Row) (id : Nat)
    (s : InvoiceStatus) (r : Row)
    (hnd : rows.Pairwise (fun a b => a.id ≠ b.id))
    (hr : r ∈ rows) (hid : r.id = id) :
    (rows.map (updRow id s)).filter (fun x => x.id == id) =
      [{ r with status := s }] := by
  induction rows with
  | nil => cases hr
  | cons x xs ih =>
    rw [List.pairwise_cons] at hnd
    rcases List.mem_cons.mp hr with hx | hxs
    · subst hx
      have hrest : ∀ y ∈ xs, y.id ≠ id := by
        intro y hy
        rw [← hid]
        exact fun hc => hnd.1 y hy hc.symm
      simp only [List.map_cons, updRow_of_eq id s r hid]
      rw [List.filter_cons_of_pos (by simp [hid]),
        map_updRow_of_no_match xs id s hrest, filter_id_eq_nil xs id hrest]
    · have hx_ne : x.id ≠ id := by
        rw [← hid]
        exact hnd.1 r hxs
      simp only [List.map_cons, updRow_of_ne id s x hx_ne]
      rw [List.filter_cons_of_neg (by simp [hx_ne])]
      exact ih hnd.2 hxs

lemma mem_filter_map_updRow (rows : List Row) (id : Nat) (s : InvoiceStatus)
    (x : Row)
    (hx : x ∈ (rows.map (updRow id s)).filter (fun y => y.id == id)) :
    x.status = s := by
  rw [List.mem_filter] at hx
  obtain ⟨hmem, hid⟩ := hx
  rw [List.mem_map] at hmem
  obtain ⟨y, _, hy⟩ := hmem
  by_cases h : y.id = id
  · rw [← hy, updRow_of_eq id s y h]
  · rw [← hy, updRow_of_ne id s y h] at hid ⊢
    exact absurd (by simpa using hid) h

/-! ### Lemmas about ORDER BY created_at DESC -/

lemma mem_insertDesc (x a : Row) (l : List Row) :
    a ∈ insertDesc x l ↔ a = x ∨ a ∈ l := by
  induction l with
  | nil => simp [insertDesc]
  | cons y ys ih =>
    unfold insertDesc
    split
    · simp
    · simp only [List.mem_cons, ih]
      tauto

lemma mem_orderByCreatedDesc (a : Row) (l : List Row) :
    a ∈ orderByCreatedDesc l ↔ a ∈ l := by
  induction l with
  | nil => simp [orderByCreatedDesc]
  | cons y ys ih =>
    unfold orderByCreatedDesc
    rw [mem_insertDesc]
    simp [ih]

lemma insertDesc_of_lt (x : Row) (l : List Row)
    (h : ∀ y ∈ l, x.created_at < y.created_at) :
    insertDesc x l = l ++ [x] := by
  induction l with
  | nil => rfl
  | cons y ys ih =>
    unfold insertDesc
    rw [if_neg (by simpa using Nat.not_le.mpr (h y (by simp))),
      ih (fun z hz => h z (by simp [hz]))]
    rfl

lemma orderByCreatedDesc_eq_reverse (l : List Row)
    (h : l.Pairwise (fun a b => a.created_at < b.created_at)) :
    orderByCreatedDesc l = l.reverse := by
  induction l with
  | nil => rfl
  | cons x xs ih =>
    rw [List.pairwise_cons] at h
    unfold orderByCreatedDesc
    rw [ih h.2, insertDesc_of_lt x xs.reverse
      (fun y hy => h.1 y (List.mem_reverse.mp hy)), List.reverse_cons]

/-! ### Characterization of the operations -/

lemma createInvoice_of_no_dup (input : CreateInvoiceInput) (db : DB)
    (h : ∀ r ∈ db.rows, r.invoice_number ≠ input.invoice_number) :
    createInvoice input db =
      (.ok (rowToInvoice (newRow input db)),
       { rows := db.rows ++ [newRow input db],
         nextId := db.nextId + 1, now := db.now + 1 }) := by
  unfold createInvoice
  rw [if_neg]
  simp only [List.any_eq_true, beq_iff_eq, not_exists]
  intro r
  rw [not_and]
  exact h r

lemma createInvoice_of_dup (input : CreateInvoiceInput) (db : DB)
    (h : ∃ r ∈ db.rows, r.invoice_number = input.invoice_number) :
    createInvoice input db = (.error .duplicateInvoiceNumber, db) := by
  unfold createInvoice
  rw [if_pos]
  simp only [List.any_eq_true, beq_iff_eq]
  exact h

lemma createInvoice_ok_inv {input : CreateInvoiceInput} {db : DB}
    {inv : Invoice} {db1 : DB}
    (h : createInvoice input db = (.ok inv, db1)) :
    (∀ r ∈ db.rows, r.invoice_number ≠ input.invoice_number) ∧
    inv = rowToInvoice (newRow input db) ∧
    db1 = { rows := db.rows ++ [newRow input db],
            nextId := db.nextId + 1, now := db.now + 1 } := by
  by_cases hdup : ∃ r ∈ db.rows, r.invoice_number = input.invoice_number
  · rw [createInvoice_of_dup input db hdup] at h
    exact absurd (congrArg Prod.fst h) (by simp)
  · push_neg at hdup
    rw [createInvoice_of_no_dup input db hdup] at h
    refine ⟨hdup, ?_, ?_⟩
    · have h1 := congrArg Prod.fst h
      simp only [Prod.fst] at h1
      exact (Except.ok.injEq .. ▸ h1).symm
    · exact (congrArg Prod.snd h).symm

lemma updateInvoiceStatus_rows (input : UpdateInvoiceStatusInput) (db : DB) :
    ((updateInvoiceStatus input db).2).rows =
      db.rows.map (updRow input.id input.status) := by
  unfold updateInvoiceStatus
  dsimp only
  cases (db.rows.map (updRow input.id input.status)).filter
    (fun r => r.id == input.id) <;> rfl

lemma updateInvoiceStatus_nextId (input : UpdateInvoiceStatusInput) (db : DB) :
    ((updateInvoiceStatus input db).2).nextId = db.nextId := by
  unfold updateInvoiceStatus
  dsimp only
  cases (db.rows.map (updRow input.id input.status)).filter
    (fun r => r.id == input.id) <;> rfl

lemma updateInvoiceStatus_now (input : UpdateInvoiceStatusInput) (db : DB) :
    ((updateInvoiceStatus input db).2).now = db.now := by
  unfold updateInvoiceStatus
  dsimp only
  cases (db.rows.map (updRow input.id input.status)).filter
    (fun r => r.id == input.id) <;> rfl

/-! ### Preservation of well-formedness -/

lemma emptyDB_WF : emptyDB.WF := by
  refine ⟨?_, ?_, ?_, ?_⟩ <;> simp [emptyDB]

lemma WF_createInvoice (input : CreateInvoiceInput) (db : DB)
    (hwf : db.WF) : ((createInvoice input db).2).WF := by
  obtain ⟨h1, h2, h3, h4⟩ := hwf
  unfold createInvoice
  split
  · exact ⟨h1, h2, h3, h4⟩
  · refine ⟨?_, ?_, ?_, ?_⟩
    · intro r hr
      rcases List.mem_append.mp hr with hm | hm
      · exact Nat.lt_succ_of_lt (h1 r hm)
      · rw [List.mem_singleton.mp hm]
        exact Nat.lt_succ_self _
    · intro r hr
      rcases List.mem_append.mp hr with hm | hm
      · exact Nat.lt_succ_of_lt (h2 r hm)
      · rw [List.mem_singleton.mp hm]
        exact Nat.lt_succ_self _
    · rw [List.pairwise_append]
      refine ⟨h3, List.pairwise_singleton .., ?_⟩
      intro a ha b hb
      rw [List.mem_singleton.mp hb]
      exact h2 a ha
    · rw [List.pairwise_append]
      refine ⟨h4, List.pairwise_singleton .., ?_⟩
      intro a ha b hb
      rw [List.mem_singleton.mp hb]
      exact h1 a ha

/-! ### Claim theorems -/

/-- Claim C1: for every id that matches no stored invoice row,
updateInvoiceStatus fails with the explicit InvoiceNotFound error — no
empty or placeholder record is returned — and the store is left
unchanged. -/
theorem c1_update_missing_id_not_found (db : DB)
    (input : UpdateInvoiceStatusInput)
    (h : ∀ r ∈ db.rows, r.id ≠ input.id) :
    (updateInvoiceStatus input db).1 =
      .error (.invoiceNotFound input.id) ∧
    (updateInvoiceStatus input db).2 = db := by
  unfold updateInvoiceStatus
  dsimp only
  rw [map_updRow_of_no_match db.rows input.id input.status h,
    filter_id_eq_nil db.rows input.id h]
  exact ⟨rfl, rfl⟩

/-- A one-invoice store used as a concrete instance in the witnesses. -/
def wrowA : Row :=
  { id := 1
    invoice_number := "INV-001"
    client_name := "Test Client"
    date_issued := 1672531200
    amount_due_cents := 100050
    status := .Pending
    description := "Test invoice description"
    created_at := 0 }

/-- A store holding just `wrowA`. -/
def wdbA : DB := { rows := [wrowA], nextId := 2, now := 1 }

theorem c1_witness :
    (∀ r ∈ wdbA.rows, r.id ≠ (99999 : Nat)) ∧
    ((updateInvoiceStatus ⟨99999, .Paid⟩ wdbA).1 =
        .error (.invoiceNotFound 99999) ∧
      (updateInvoiceStatus ⟨99999, .Paid⟩ wdbA).2 = wdbA) :=
  ⟨by decide, c1_update_missing_id_not_found wdbA ⟨99999, .Paid⟩ (by decide)⟩

/-- Claim C8: for every existing invoice and every target status, the
status update succeeds regardless of the current status of the invoice —
there is no guard on the transition, in either direction. -/
theorem c8_update_unconditional (db : DB) (id : Nat) (s : InvoiceStatus)
    (r : Row) (hr : r ∈ db.rows) (hid : r.id = id) :
    ∃ inv, (updateInvoiceStatus ⟨id, s⟩ db).1 = .ok inv ∧ inv.status = s := by
  have hmem : updRow id s r ∈
      (db.rows.map (updRow id s)).filter (fun x => x.id == id) := by
    rw [List.mem_filter]
    exact ⟨List.mem_map_of_mem _ hr, by simp [updRow_id, hid]⟩
  cases hres : (db.rows.map (updRow id s)).filter (fun x => x.id == id) with
  | nil => rw [hres] at hmem; cases hmem
  | cons x xs =>
    refine ⟨rowToInvoice x, ?_, ?_⟩
    · unfold updateInvoiceStatus
      dsimp only
      rw [hres]
    · have hx := mem_filter_map_updRow db.rows id s x
        (hres ▸ List.mem_cons_self x xs)
      simpa [rowToInvoice] using hx

/-- A store with one Paid row, used to witness the Paid → Pending
transition concretely. -/
def wrowB : Row :=
  { id := 1
    invoice_number := "INV-002"
    client_name := "Another Client"
    date_issued := 1675209600
    amount_due_cents := 50025
    status := .Paid
    description := "Paid invoice"
    created_at := 0 }

/-- A store holding just `wrowB`. -/
def wdbB : DB := { rows := [wrowB], nextId := 2, now := 1 }

theorem c8_witness :
    ∃ inv, (updateInvoiceStatus ⟨1, .Pending⟩ wdbB).1 = .ok inv ∧
      inv.status = .Pending :=
  c8_update_unconditional wdbB 1 .Pending wrowB (by decide) (by decide)

lemma eq_of_same_id {rows : List Row}
    (hnd : rows.Pairwise (fun a b => a.id ≠ b.id)) {r x : Row}
    (hr : r ∈ rows) (hx : x ∈ rows) (h : x.id = r.id) : x = r := by
  induction rows with
  | nil => cases hr
  | cons y ys ih =>
    rw [List.pairwise_cons] at hnd
    rcases List.mem_cons.mp hr with hry | hry
    · subst hry
      rcases List.mem_cons.mp hx with hxy | hxy
      · exact hxy
      · exact absurd h.symm (hnd.1 x hxy)
    · rcases List.mem_cons.mp hx with hxy | hxy
      · subst hxy
        exact absurd h (hnd.1 r hry)
      · exact ih hnd.2 hry hxy

lemma DB_eq_of_fields {a b : DB} (h1 : a.rows = b.rows)
    (h2 : a.nextId = b.nextId) (h3 : a.now = b.now) : a = b := by
  cases a
  cases b
  cases h1
  cases h2
  cases h3
  rfl

/-- Claim C7: updateInvoiceStatus changes only the status field — the
frame (id, invoice_number, client_name, date_issued, amount_due,
description, created_at) of every stored row is preserved, the returned
invoice is the targeted row with just its status replaced, and updating a
Pending invoice to Paid and then back to Pending restores the store
exactly. -/
theorem c7_update_only_status (db : DB) (id : Nat) (s : InvoiceStatus)
    (r : Row)
    (hnd : db.rows.Pairwise (fun a b => a.id ≠ b.id))
    (hr : r ∈ db.rows) (hid : r.id = id) :
    ((updateInvoiceStatus ⟨id, s⟩ db).2).rows.map Row.frame =
      db.rows.map Row.frame ∧
    (updateInvoiceStatus ⟨id, s⟩ db).1 =
      .ok (rowToInvoice { r with status := s }) ∧
    (r.status = .Pending →
      (updateInvoiceStatus ⟨id, .Pending⟩
        (updateInvoiceStatus ⟨id, .Paid⟩ db).2).2 = db) := by
  refine ⟨?_, ?_, ?_⟩
  · rw [updateInvoiceStatus_rows, List.map_map]
    exact List.map_congr_left (fun a _ => updRow_frame id s a)
  · unfold updateInvoiceStatus
    dsimp only
    rw [filter_map_updRow_unique db.rows id s r hnd hr hid]
  · intro hPending
    have key : ∀ x ∈ db.rows, updRow id .Pending (updRow id .Paid x) = x := by
      intro x hx
      by_cases hxid : x.id = id
      · have hxr : x = r := eq_of_same_id hnd hr hx (by rw [hxid, hid])
        subst hxr
        rw [updRow_of_eq id .Paid x hxid,
          updRow_of_eq id .Pending { x with status := .Paid } hxid]
        obtain ⟨i, nbr, cl, di, am, st, de, ca⟩ := x
        cases hPending
        rfl
      · rw [updRow_of_ne id .Paid x hxid, updRow_of_ne id .Pending x hxid]
    apply DB_eq_of_fields
    · rw [updateInvoiceStatus_rows, updateInvoiceStatus_rows, List.map_map,
        show db.rows.map (updRow id .Pending ∘ updRow id .Paid) =
            db.rows.map (fun x => x) from
          List.map_congr_left (fun a ha => key a ha)]
      exact List.map_id' db.rows
    · rw [updateInvoiceStatus_nextId, updateInvoiceStatus_nextId]
    · rw [updateInvoiceStatus_now, updateInvoiceStatus_now]

theorem c7_witness :
    wdbA.rows.Pairwise (fun a b => a.id ≠ b.id) ∧
    wrowA ∈ wdbA.rows ∧ wrowA.id = 1 ∧ wrowA.status = .Pending ∧
    (((updateInvoiceStatus ⟨1, .Paid⟩ wdbA).2).rows.map Row.frame =
        wdbA.rows.map Row.frame ∧
      (updateInvoiceStatus ⟨1, .Paid⟩ wdbA).1 =
        .ok (rowToInvoice { wrowA with status := .Paid }) ∧
      (wrowA.status = .Pending →
        (updateInvoiceStatus ⟨1, .Pending⟩
          (updateInvoiceStatus ⟨1, .Paid⟩ wdbA).2).2 = wdbA)) :=
  ⟨by decide, by decide, by decide, by decide,
    c7_update_only_status wdbA 1 .Paid wrowA (by decide) (by decide)
      (by decide)⟩

/-- A creation input whose amount has more than two fractional digits:
half a cent. Every validated constraint holds (non-empty strings, a
positive amount, a legal status). -/
def inputHC : CreateInvoiceInput :=
  { invoice_number := "INV-FRACTION"
    client_name := "Fraction Client"
    date_issued := 1704067200
    amount_due := 1 / 200
    status := .Pending
    description := "Sub-cent amount" }

attribute [local semireducible] Rat.mul Rat.inv Rat.add Rat.sub in
/-- Claim C5, counterexample: the half-cent input is valid (positive
amount, non-empty required fields), yet the invoice returned by
createInvoice carries amount_due 0.01, not the submitted 0.005 — so not
every field of the result equals the input. -/
theorem c5_counterexample :
    0 < inputHC.amount_due ∧
    inputHC.invoice_number ≠ "" ∧
    inputHC.client_name ≠ "" ∧
    inputHC.description ≠ "" ∧
    (createInvoice inputHC emptyDB).1 =
      .ok (rowToInvoice (newRow inputHC emptyDB)) ∧
    (rowToInvoice (newRow inputHC emptyDB)).amount_due = 1 / 100 ∧
    (rowToInvoice (newRow inputHC emptyDB)).amount_due ≠
      inputHC.amount_due :=
  ⟨by decide, by decide, by decide, by decide, rfl, by decide, by decide⟩

/-- Claim C5, amended: a successful createInvoice returns an invoice
whose invoice_number, client_name, date_issued, status and description
equal the input, whose id and created_at are the store's fresh serial and
clock values, and whose amount_due is the input amount rounded to the
2-decimal storage precision — equal to the submitted amount whenever that
amount has at most 2 fractional digits. -/
theorem c5_create_returns_input_fields (db : DB)
    (input : CreateInvoiceInput) (inv : Invoice) (db1 : DB)
    (h : createInvoice input db = (.ok inv, db1)) :
    inv.invoice_number = input.invoice_number ∧
    inv.client_name = input.client_name ∧
    inv.date_issued = input.date_issued ∧
    inv.status = input.status ∧
    inv.description = input.description ∧
    inv.amount_due = fromCents (pgRound2 input.amount_due) ∧
    ((∃ n : Int, input.amount_due = (n : Rat) / 100) →
      inv.amount_due = input.amount_due) ∧
    inv.id = db.nextId ∧ inv.created_at = db.now ∧
    db1.nextId = db.nextId + 1 := by
  obtain ⟨-, hinv, hdb1⟩ := createInvoice_ok_inv h
  subst hinv
  subst hdb1
  refine ⟨rfl, rfl, rfl, rfl, rfl, rfl, ?_, rfl, rfl, rfl⟩
  rintro ⟨n, hn⟩
  exact fromCents_pgRound2_of_cents input.amount_due n hn

/-- The example creation input of the specification (INV-001 for 1250.75,
Pending). -/
def input0 : CreateInvoiceInput :=
  { invoice_number := "INV-2024-001"
    client_name := "Test Client Corp"
    date_issued := 1705276800
    amount_due := 125075 / 100
    status := .Pending
    description := "Software development services" }

/-- The invoice returned by creating `input0` against the empty store. -/
def inv0 : Invoice := rowToInvoice (newRow input0 emptyDB)

/-- The store after creating `input0` against the empty store. -/
def db0 : DB := { rows := [newRow input0 emptyDB], nextId := 2, now := 1 }

theorem c5_witness :
    inv0.invoice_number = input0.invoice_number ∧
    inv0.client_name = input0.client_name ∧
    inv0.date_issued = input0.date_issued ∧
    inv0.status = input0.status ∧
    inv0.description = input0.description ∧
    inv0.amount_due = fromCents (pgRound2 input0.amount_due) ∧
    ((∃ n : Int, input0.amount_due = (n : Rat) / 100) →
      inv0.amount_due = input0.amount_due) ∧
    inv0.id = emptyDB.nextId ∧ inv0.created_at = emptyDB.now ∧
    db0.nextId = emptyDB.nextId + 1 :=
  c5_create_returns_input_fields emptyDB input0 inv0 db0 rfl

/-- Claim C3: after a successful create, a second create with the same
invoice_number fails with DuplicateInvoiceNumber and does not change the
store; if the store had pairwise-distinct invoice numbers before, it
still has them afterwards, and exactly one row holds the colliding
number. -/
theorem c3_duplicate_invoice_number (db : DB)
    (i1 i2 : CreateInvoiceInput) (inv : Invoice) (db1 : DB)
    (hnum : i2.invoice_number = i1.invoice_number)
    (h1 : createInvoice i1 db = (.ok inv, db1)) :
    (createInvoice i2 db1).1 = .error .duplicateInvoiceNumber ∧
    (createInvoice i2 db1).2 = db1 ∧
    ((db.rows.map (fun r => r.invoice_number)).Nodup →
      (db1.rows.map (fun r => r.invoice_number)).Nodup ∧
      (db1.rows.filter
        (fun r => r.invoice_number == i1.invoice_number)).length = 1) := by
  obtain ⟨hnodup, -, hdb1⟩ := createInvoice_ok_inv h1
  have hdup : ∃ r ∈ db1.rows, r.invoice_number = i2.invoice_number := by
    refine ⟨newRow i1 db, ?_, ?_⟩
    · rw [hdb1]
      simp
    · rw [hnum]
      rfl
  rw [createInvoice_of_dup i2 db1 hdup]
  refine ⟨rfl, rfl, ?_⟩
  intro hnd
  subst hdb1
  constructor
  · rw [List.map_append, List.nodup_append]
    refine ⟨hnd, by simp, ?_⟩
    intro a ha hb
    simp only [List.map_cons, List.map_nil, List.mem_singleton] at hb
    rw [List.mem_map] at ha
    obtain ⟨r, hr, hra⟩ := ha
    exact hnodup r hr (by rw [hra, hb]; rfl)
  · have hleft : db.rows.filter
        (fun r => r.invoice_number == i1.invoice_number) = [] :=
      List.filter_eq_nil_iff.mpr (fun r hr => by simpa using hnodup r hr)
    rw [List.filter_append, hleft]
    simp [newRow]

theorem c3_witness :
    ({ input0 with client_name := "Different Client"
       : CreateInvoiceInput }).invoice_number = input0.invoice_number ∧
    createInvoice input0 emptyDB = (.ok inv0, db0) ∧
    ((createInvoice { input0 with client_name := "Different Client" }
        db0).1 = .error .duplicateInvoiceNumber ∧
      (createInvoice { input0 with client_name := "Different Client" }
        db0).2 = db0 ∧
      ((emptyDB.rows.map (fun r => r.invoice_number)).Nodup →
        (db0.rows.map (fun r => r.invoice_number)).Nodup ∧
        (db0.rows.filter
          (fun r => r.invoice_number == input0.invoice_number)).length
            = 1)) :=
  ⟨rfl, rfl,
    c3_duplicate_invoice_number emptyDB input0
      { input0 with client_name := "Different Client" } inv0 db0 rfl rfl⟩

/-- Claim C2: the amount_due of an invoice returned by createInvoice, and
of the same invoice read back through getInvoices or through
updateInvoiceStatus, is the numeric decode of the stored 2-decimal value:
it equals the submitted amount to 2 decimal places, and it is a number
(the decode of the storage form), not the storage string. -/
theorem c2_amount_due_roundtrip (db : DB) (input : CreateInvoiceInput)
    (inv : Invoice) (db1 : DB)
    (hids : ∀ r ∈ db.rows, r.id < db.nextId)
    (h : createInvoice input db = (.ok inv, db1)) :
    inv.amount_due = fromCents (pgRound2 input.amount_due) ∧
    pgRound2 inv.amount_due = pgRound2 input.amount_due ∧
    (∃ inv1 ∈ getInvoices db1, inv1.id = inv.id ∧
      pgRound2 inv1.amount_due = pgRound2 input.amount_due) ∧
    (∀ s : InvoiceStatus, ∃ inv2,
      (updateInvoiceStatus ⟨inv.id, s⟩ db1).1 = .ok inv2 ∧
      pgRound2 inv2.amount_due = pgRound2 input.amount_due) := by
  obtain ⟨-, hinv, hdb1⟩ := createInvoice_ok_inv h
  subst hinv
  subst hdb1
  refine ⟨rfl, pgRound2_idem input.amount_due, ?_, ?_⟩
  · refine ⟨rowToInvoice (newRow input db), ?_, rfl,
      pgRound2_idem input.amount_due⟩
    unfold getInvoices
    apply List.mem_map_of_mem
    rw [mem_orderByCreatedDesc]
    simp
  · intro s
    have hold : ∀ r ∈ db.rows, r.id ≠ db.nextId :=
      fun r hr => Nat.ne_of_lt (hids r hr)
    have hfilter : ((db.rows ++ [newRow input db]).map
        (updRow db.nextId s)).filter (fun x => x.id == db.nextId) =
        [{ newRow input db with status := s }] := by
      rw [List.map_append, List.filter_append,
        map_updRow_of_no_match db.rows db.nextId s hold,
        filter_id_eq_nil db.rows db.nextId hold, List.map_cons,
        List.map_nil, updRow_of_eq db.nextId s (newRow input db) rfl]
      simp [newRow]
    refine ⟨rowToInvoice { newRow input db with status := s }, ?_,
      pgRound2_idem input.amount_due⟩
    show (updateInvoiceStatus ⟨db.nextId, s⟩ _).1 = _
    unfold updateInvoiceStatus
    dsimp only
    rw [hfilter]

theorem c2_witness :
    (∀ r ∈ emptyDB.rows, r.id < emptyDB.nextId) ∧
    (inv0.amount_due = fromCents (pgRound2 input0.amount_due) ∧
      pgRound2 inv0.amount_due = pgRound2 input0.amount_due ∧
      (∃ inv1 ∈ getInvoices db0, inv1.id = inv0.id ∧
        pgRound2 inv1.amount_due = pgRound2 input0.amount_due) ∧
      (∀ s : InvoiceStatus, ∃ inv2,
        (updateInvoiceStatus ⟨inv0.id, s⟩ db0).1 = .ok inv2 ∧
        pgRound2 inv2.amount_due = pgRound2 input0.amount_due)) :=
  ⟨by simp [emptyDB],
    c2_amount_due_roundtrip emptyDB input0 inv0 db0
      (by simp [emptyDB]) rfl⟩

lemma createAll_spec (inputs : List CreateInvoiceInput) (db : DB)
    (hwf : db.WF)
    (hnodup : (inputs.map (fun i => i.invoice_number)).Nodup)
    (hdisj : ∀ i ∈ inputs, ∀ r ∈ db.rows,
      r.invoice_number ≠ i.invoice_number) :
    (createAll inputs db).rows.map (fun r => r.invoice_number) =
      db.rows.map (fun r => r.invoice_number) ++
        inputs.map (fun i => i.invoice_number) ∧
    (createAll inputs db).WF := by
  induction inputs generalizing db with
  | nil => exact ⟨by simp [createAll], hwf⟩
  | cons i rest ih =>
    have hstep := createInvoice_of_no_dup i db
      (fun r hr => hdisj i (by simp) r hr)
    have hca : createAll (i :: rest) db = createAll rest
        { rows := db.rows ++ [newRow i db],
          nextId := db.nextId + 1, now := db.now + 1 } := by
      unfold createAll
      rw [List.foldl_cons]
      congr 1
      rw [hstep]
    have hwf1 : ({ rows := db.rows ++ [newRow i db],
                   nextId := db.nextId + 1, now := db.now + 1 } : DB).WF := by
      have hh := WF_createInvoice i db hwf
      rw [hstep] at hh
      exact hh
    obtain ⟨hnd1, hnd2⟩ := List.nodup_cons.mp hnodup
    have hdisj1 : ∀ j ∈ rest,
        ∀ r ∈ db.rows ++ [newRow i db],
          r.invoice_number ≠ j.invoice_number := by
      intro j hj r hr
      rcases List.mem_append.mp hr with hm | hm
      · exact hdisj j (by simp [hj]) r hm
      · rw [List.mem_singleton.mp hm]
        show i.invoice_number ≠ j.invoice_number
        intro hc
        apply hnd1
        show i.invoice_number ∈ rest.map (fun x => x.invoice_number)
        rw [hc]
        exact List.mem_map_of_mem _ hj
    obtain ⟨hmap, hwfN⟩ := ih
      { rows := db.rows ++ [newRow i db],
        nextId := db.nextId + 1, now := db.now + 1 } hwf1 hnd2 hdisj1
    rw [hca]
    refine ⟨?_, hwfN⟩
    rw [hmap]
    show (db.rows ++ [newRow i db]).map (fun r => r.invoice_number) ++
        rest.map (fun i => i.invoice_number) = _
    rw [List.map_append, List.append_assoc]
    rfl

/-- Claim C4: getInvoices on the empty store is the empty sequence, and
after creating N invoices in sequence it returns exactly N entries,
listing invoice numbers in reverse creation order (most recently created
first) with strictly descending created_at values. -/
theorem c4_getInvoices_newest_first (inputs : List CreateInvoiceInput)
    (hnodup : (inputs.map (fun i => i.invoice_number)).Nodup) :
    getInvoices emptyDB = [] ∧
    (getInvoices (createAll inputs emptyDB)).length = inputs.length ∧
    (getInvoices (createAll inputs emptyDB)).map
        (fun v => v.invoice_number) =
      (inputs.map (fun i => i.invoice_number)).reverse ∧
    (getInvoices (createAll inputs emptyDB)).Pairwise
      (fun a b => b.created_at < a.created_at) := by
  obtain ⟨hmap, hwf⟩ := createAll_spec inputs emptyDB emptyDB_WF hnodup
    (by simp [emptyDB])
  obtain ⟨-, -, hpw, -⟩ := hwf
  have hm2 : (createAll inputs emptyDB).rows.map
      (fun r => r.invoice_number) =
      inputs.map (fun i => i.invoice_number) := by
    rw [hmap]
    simp [emptyDB]
  have hrev : getInvoices (createAll inputs emptyDB) =
      ((createAll inputs emptyDB).rows.reverse).map rowToInvoice := by
    unfold getInvoices
    rw [orderByCreatedDesc_eq_reverse _ hpw]
  refine ⟨rfl, ?_, ?_, ?_⟩
  · rw [hrev, List.length_map, List.length_reverse,
      ← List.length_map (createAll inputs emptyDB).rows
        (fun r => r.invoice_number), hm2, List.length_map]
  · rw [hrev, List.map_map,
      show ((fun v : Invoice => v.invoice_number) ∘ rowToInvoice) =
        (fun r : Row => r.invoice_number) from rfl,
      List.map_reverse, hm2]
  · rw [hrev, List.pairwise_map, List.pairwise_reverse]
    exact hpw

/-- A second creation input with a distinct invoice number, for concrete
instances. -/
def inputB : CreateInvoiceInput :=
  { invoice_number := "INV-2024-002"
    client_name := "Another Client"
    date_issued := 1705708800
    amount_due := 250
    status := .Paid
    description := "Design consultation" }

attribute [local semireducible] Rat.mul Rat.inv Rat.add Rat.sub in
theorem c4_witness :
    ([input0, inputB].map (fun i => i.invoice_number)).Nodup ∧
    (getInvoices emptyDB = [] ∧
      (getInvoices (createAll [input0, inputB] emptyDB)).length = 2 ∧
      (getInvoices (createAll [input0, inputB] emptyDB)).map
          (fun v => v.invoice_number) =
        ([input0, inputB].map (fun i => i.invoice_number)).reverse ∧
      (getInvoices (createAll [input0, inputB] emptyDB)).Pairwise
        (fun a b => b.created_at < a.created_at)) :=
  ⟨by decide, c4_getInvoices_newest_first [input0, inputB] (by decide)⟩

lemma requireNonEmpty_ok {msg : String} {o : Option String} {s : String}
    (h : requireNonEmpty msg o = .ok s) : o = some s ∧ s.length ≠ 0 := by
  cases o with
  | none => simp [requireNonEmpty] at h
  | some t =>
    rw [show requireNonEmpty msg (some t) =
      if t.length = 0 then .error msg else .ok t from rfl] at h
    split at h
    · simp at h
    · rename_i hlen
      injection h with h2
      subst h2
      exact ⟨rfl, hlen⟩

lemma requireDate_ok {o : Option Int} {d : Int}
    (h : requireDate o = .ok d) : o = some d := by
  cases o with
  | none => simp [requireDate] at h
  | some t =>
    simp only [requireDate, Except.ok.injEq] at h
    rw [h]

lemma requirePositive_ok {msg : String} {o : Option Rat} {q : Rat}
    (h : requirePositive msg o = .ok q) : o = some q ∧ 0 < q := by
  cases o with
  | none => simp [requirePositive] at h
  | some t =>
    rw [show requirePositive msg (some t) =
      if t ≤ 0 then .error msg else .ok t from rfl] at h
    split at h
    · simp at h
    · rename_i hle
      injection h with h2
      subst h2
      exact ⟨rfl, not_le.mp hle⟩

lemma parseStatus_ok {o : Option String} {s : InvoiceStatus}
    (h : parseStatus o = .ok s) :
    o = none ∨ o = some "Pending" ∨ o = some "Paid" := by
  cases o with
  | none => exact Or.inl rfl
  | some t =>
    rw [show parseStatus (some t) =
      (if t = "Pending" then .ok .Pending
       else if t = "Paid" then .ok .Paid
       else .error "Invalid enum value for status") from rfl] at h
    split at h
    · rename_i hp
      exact Or.inr (Or.inl (by rw [hp]))
    · split at h
      · rename_i hp
        exact Or.inr (Or.inr (by rw [hp]))
      · simp at h

lemma parse_ok_fields {raw : RawCreateInput} {input : CreateInvoiceInput}
    (h : parseCreateInput raw = .ok input) :
    (∃ s, raw.invoice_number = some s ∧ s.length ≠ 0) ∧
    (∃ s, raw.client_name = some s ∧ s.length ≠ 0) ∧
    raw.date_issued ≠ none ∧
    (∃ q, raw.amount_due = some q ∧ 0 < q) ∧
    (raw.status = none ∨ raw.status = some "Pending" ∨
      raw.status = some "Paid") ∧
    (∃ s, raw.description = some s ∧ s.length ≠ 0) := by
  unfold parseCreateInput at h
  split at h
  · simp at h
  · rename_i n heq1
    split at h
    · simp at h
    · rename_i c heq2
      split at h
      · simp at h
      · rename_i d heq3
        split at h
        · simp at h
        · rename_i a heq4
          split at h
          · simp at h
          · rename_i s5 heq5
            split at h
            · simp at h
            · rename_i de heq6
              obtain ⟨hn, hn0⟩ := requireNonEmpty_ok heq1
              obtain ⟨hc, hc0⟩ := requireNonEmpty_ok heq2
              obtain ⟨ha, ha0⟩ := requirePositive_ok heq4
              obtain ⟨hd, hd0⟩ := requireNonEmpty_ok heq6
              refine ⟨⟨n, hn, hn0⟩, ⟨c, hc, hc0⟩, ?_, ⟨a, ha, ha0⟩,
                parseStatus_ok heq5, ⟨de, hd, hd0⟩⟩
              rw [requireDate_ok heq3]
              simp

/-- The shapes of raw create requests that violate the schema: a missing
or empty required string, a missing date, a missing or non-positive
amount, or a status string that is neither Pending nor Paid. -/
def RawCreateInput.invalid (raw : RawCreateInput) : Prop :=
  (match raw.invoice_number with
   | none => True
   | some s => s.length = 0) ∨
  (match raw.client_name with
   | none => True
   | some s => s.length = 0) ∨
  raw.date_issued = none ∨
  (match raw.amount_due with
   | none => True
   | some q => q ≤ 0) ∨
  (match raw.status with
   | none => False
   | some s => s ≠ "Pending" ∧ s ≠ "Paid") ∨
  (match raw.description with
   | none => True
   | some s => s.length = 0)

/-- Claim C6: any create request with a missing or empty required field,
a non-positive amount, or an illegal status value fails with a
ValidationError, and the store the procedure returns is the untouched
input store — the schema check runs before any store access, so there is
no partial effect. -/
theorem c6_validation_before_store (raw : RawCreateInput) (db : DB)
    (h : raw.invalid) :
    ∃ msg, createInvoiceProcedure raw db =
      (.error (.validationError msg), db) := by
  cases hp : parseCreateInput raw with
  | error m =>
    refine ⟨m, ?_⟩
    unfold createInvoiceProcedure
    rw [hp]
  | ok input =>
    exfalso
    obtain ⟨⟨s1, h1, h1n⟩, ⟨s2, h2, h2n⟩, h3, ⟨q, h4, h4p⟩, h5,
      ⟨s6, h6, h6n⟩⟩ := parse_ok_fields hp
    unfold RawCreateInput.invalid at h
    rcases h with hbad | hbad | hbad | hbad | hbad | hbad
    · rw [h1] at hbad
      exact h1n hbad
    · rw [h2] at hbad
      exact h2n hbad
    · exact h3 hbad
    · rw [h4] at hbad
      exact absurd h4p (not_lt.mpr hbad)
    · rcases h5 with h5 | h5 | h5 <;> rw [h5] at hbad
      · exact hbad
      · exact hbad.1 rfl
      · exact hbad.2 rfl
    · rw [h6] at hbad
      exact h6n hbad

/-- A raw request whose invoice number is present but empty: the schema
must reject it. -/
def rawInvalid0 : RawCreateInput :=
  { invoice_number := some ""
    client_name := some "Test Client Corp"
    date_issued := some 1705276800
    amount_due := some 100
    status := some "Pending"
    description := some "Valid description" }

theorem c6_witness :
    rawInvalid0.invalid ∧
    ∃ msg, createInvoiceProcedure rawInvalid0 emptyDB =
      (.error (.validationError msg), emptyDB) :=
  ⟨Or.inl rfl, c6_validation_before_store rawInvalid0 emptyDB (Or.inl rfl)⟩

/-- The raw request corresponding to `inputHC`: a half-cent amount,
every other field well-formed. -/
def rawHC : RawCreateInput :=
  { invoice_number := some "INV-FRACTION"
    client_name := some "Fraction Client"
    date_issued := some 1704067200
    amount_due := some (1 / 200)
    status := some "Pending"
    description := some "Sub-cent amount" }

attribute [local semireducible] Rat.mul Rat.inv Rat.add Rat.sub in
/-- Claim C10: a request whose amount has more than 2 fractional digits
(half a cent) passes validation — only positivity is checked — and is
stored at the 2-decimal column precision, so the amount read back (0.01)
differs from the amount submitted (0.005); exact round-tripping holds for
every amount that is a whole number of cents. -/
theorem c10_extra_precision_rounds :
    parseCreateInput rawHC = .ok inputHC ∧
    inputHC.amount_due = 1 / 200 ∧
    (createInvoice inputHC emptyDB).1 =
      .ok (rowToInvoice (newRow inputHC emptyDB)) ∧
    (rowToInvoice (newRow inputHC emptyDB)).amount_due = 1 / 100 ∧
    (rowToInvoice (newRow inputHC emptyDB)).amount_due ≠
      inputHC.amount_due ∧
    (∀ q : Rat, (∃ n : Int, q = (n : Rat) / 100) →
      fromCents (pgRound2 q) = q) := by
  refine ⟨rfl, rfl, rfl, by decide, by decide, ?_⟩
  rintro q ⟨n, hn⟩
  exact fromCents_pgRound2_of_cents q n hn

/-- Claim C9: in the client, a successful create prepends the returned
invoice to the front of the local list and resets the form to its
defaults (status Pending, amount 0, date set to the current date), while
a failed create or status update leaves the invoice list and the form
untouched. -/
theorem c9_client_handlers (today : Int) (s : ClientState) (inv : Invoice)
    (e : String) (invoiceId : Nat) :
    handleCreateInvoice today s (.ok inv) =
      { s with invoices := inv :: s.invoices
               formData := defaultFormData today
               isCreating := false } ∧
    (defaultFormData today).status = .Pending ∧
    (defaultFormData today).amount_due = 0 ∧
    (defaultFormData today).date_issued = today ∧
    (handleCreateInvoice today s (.error e)).invoices = s.invoices ∧
    (handleCreateInvoice today s (.error e)).formData = s.formData ∧
    handleStatusUpdate invoiceId s (.error e) = s :=
  ⟨rfl, rfl, rfl, rfl, rfl, rfl, rfl⟩

end InvoiceManager
